import Mathlib

set_option maxRecDepth 8192

/-!
Verification of the HTTP client execution pipeline of `src/client.rs`.

The file embeds the data model (`Request`, `Response`), the success range
`HTTP_SUCCESS_CODES`, the strict UTF-8 decoding used by
`String::from_utf8(..).ok()`, and the default `execute` pipeline of the
blocking (`ClientBlocking`) and asynchronous (`Client`) transport traits.
A trait object is modelled as a structure holding its `send` function and
its configured `base` string; the `async` pipeline is embedded as the same
kind of pure function of the `send` result, since the pipeline holds no
state across the suspension point.
-/

namespace Rustify

/-- `url::Url` (external crate), modelled by its canonical textual form. -/
def Url := String

instance : DecidableEq Url := inferInstanceAs (DecidableEq String)

/-- `Url::to_string`, which renders the URL as text. -/
def Url.toString (u : Url) : String := u

/-- `serde_json::Value` (external crate): a JSON document. The pipeline never
inspects these values; they only occur inside `Request.query`. -/
inductive Value where
  | null
  | bool (b : Bool)
  | num (n : Int)
  | str (s : String)
  | arr (elems : List Value)
  | obj (fields : List (String × Value))

/-- Modelled from the spec: `RequestMethod` from `crate::enums` is not under
`src/`; spec §3 describes it as one of a closed set of HTTP verbs
(GET, POST, PUT, PATCH, DELETE, LIST, etc.). -/
inductive RequestMethod where
  | GET
  | POST
  | PUT
  | PATCH
  | DELETE
  | LIST
deriving DecidableEq

/-- Modelled from the spec: `ClientError` from `crate::errors` is not under
`src/`. Spec §7 gives a closed taxonomy: an opaque transport-level error
originating inside `send`, and `ServerResponseError` carrying the responding
URL as text, the numeric status code, and an optional UTF-8 decoding of the
error body. -/
inductive ClientError where
  | transport (message : String)
  | serverResponseError (url : String) (code : Nat) (content : Option String)
deriving DecidableEq

/-- `struct Request` from `src/client.rs`. Bytes of `body` are `u8` values,
embedded as naturals below 256. -/
structure Request where
  url : Url
  method : RequestMethod
  query : List (String × Value)
  headers : List (String × String)
  body : List Nat

/-- `struct Response` from `src/client.rs`. `code` is the `u16` status code. -/
structure Response where
  url : Url
  code : Nat
  body : List Nat
deriving DecidableEq

/-- Continuation byte test: `0x80 ≤ b ≤ 0xBF`. -/
def isCont (b : Nat) : Bool := 0x80 ≤ b && b ≤ 0xBF

/-- One step of strict UTF-8 decoding, as performed by Rust's
`String::from_utf8`: from a leading byte `b0` and the remaining bytes,
produce the decoded scalar value and the bytes left over, or `none` when the
sequence is ill-formed. Overlong forms, surrogate code points and values
above `0x10FFFF` are rejected, exactly as in the Rust standard library. -/
def utf8DecodeStep (b0 : Nat) (rest : List Nat) : Option (Char × List Nat) :=
  if b0 < 0x80 then
    some (Char.ofNat b0, rest)
  else if b0 < 0xC2 then
    none
  else if b0 < 0xE0 then
    match rest with
    | b1 :: rest2 =>
      if isCont b1 then
        some (Char.ofNat ((b0 - 0xC0) * 0x40 + (b1 - 0x80)), rest2)
      else none
    | [] => none
  else if b0 < 0xF0 then
    match rest with
    | b1 :: b2 :: rest3 =>
      if (if b0 = 0xE0 then decide (0xA0 ≤ b1) && decide (b1 ≤ 0xBF)
          else if b0 = 0xED then decide (0x80 ≤ b1) && decide (b1 ≤ 0x9F)
          else isCont b1) && isCont b2 then
        some (Char.ofNat ((b0 - 0xE0) * 0x1000 + (b1 - 0x80) * 0x40 + (b2 - 0x80)),
          rest3)
      else none
    | _ => none
  else if b0 < 0xF5 then
    match rest with
    | b1 :: b2 :: b3 :: rest4 =>
      if (if b0 = 0xF0 then decide (0x90 ≤ b1) && decide (b1 ≤ 0xBF)
          else if b0 = 0xF4 then decide (0x80 ≤ b1) && decide (b1 ≤ 0x8F)
          else isCont b1) && isCont b2 && isCont b3 then
        some (Char.ofNat
            ((b0 - 0xF0) * 0x40000 + (b1 - 0x80) * 0x1000 +
              (b2 - 0x80) * 0x40 + (b3 - 0x80)),
          rest4)
      else none
    | _ => none
  else none

/-- A successful decoding step only consumes bytes: the leftover is no longer
than the input tail. -/
theorem utf8DecodeStep_length {b0 : Nat} {rest : List Nat} {c : Char}
    {rest2 : List Nat} (h : utf8DecodeStep b0 rest = some (c, rest2)) :
    rest2.length ≤ rest.length := by
  unfold utf8DecodeStep at h
  split_ifs at h
  any_goals cases h
  any_goals exact Nat.le_refl _
  all_goals split at h
  any_goals cases h
  all_goals split_ifs at h
  any_goals cases h
  all_goals simp only [List.length_cons]
  all_goals omega

/-- Fuelled helper for whole-sequence UTF-8 decoding: repeat
`utf8DecodeStep` until the input is exhausted, failing as soon as one step
fails. The fuel only serves structural termination; any fuel at least the
input length gives the same result (`utf8DecodeAux_congr`). -/
def utf8DecodeAux (fuel : Nat) (bs : List Nat) : Option (List Char) :=
  match bs, fuel with
  | [], _ => some []
  | _ :: _, 0 => none
  | b0 :: rest, fuel + 1 =>
    match utf8DecodeStep b0 rest with
    | none => none
    | some (c, rest2) => (utf8DecodeAux fuel rest2).map (fun cs => c :: cs)

/-- Strict UTF-8 decoding of a whole byte sequence into unicode scalar
values, as performed by Rust's `String::from_utf8`. -/
def utf8DecodeList (bs : List Nat) : Option (List Char) :=
  utf8DecodeAux bs.length bs

/-- The fuel in `utf8DecodeAux` is irrelevant as soon as it covers the input
length, because each decoding step consumes at least one byte. -/
theorem utf8DecodeAux_congr :
    ∀ (f1 f2 : Nat) (bs : List Nat), bs.length ≤ f1 → bs.length ≤ f2 →
      utf8DecodeAux f1 bs = utf8DecodeAux f2 bs := by
  intro f1
  induction f1 with
  | zero =>
    intro f2 bs h1 _
    match bs with
    | [] =>
      match f2 with
      | 0 => rfl
      | _ + 1 => rfl
    | _ :: _ => simp at h1
  | succ g1 ih =>
    intro f2 bs h1 h2
    match bs with
    | [] =>
      match f2 with
      | 0 => rfl
      | _ + 1 => rfl
    | b0 :: rest =>
      match f2 with
      | 0 => simp at h2
      | g2 + 1 =>
        show (match utf8DecodeStep b0 rest with
          | none => none
          | some (c, rest2) => (utf8DecodeAux g1 rest2).map (fun cs => c :: cs)) =
          (match utf8DecodeStep b0 rest with
          | none => none
          | some (c, rest2) => (utf8DecodeAux g2 rest2).map (fun cs => c :: cs))
        match hstep : utf8DecodeStep b0 rest with
        | none => rfl
        | some (c, rest2) =>
          have hlen := utf8DecodeStep_length hstep
          have hlen1 : rest2.length ≤ g1 := by
            simp only [List.length_cons] at h1
            omega
          have hlen2 : rest2.length ≤ g2 := by
            simp only [List.length_cons] at h2
            omega
          simp only [ih g2 rest2 hlen1 hlen2]

/-- `String::from_utf8(bytes).ok()`: `some` of the decoded text when the
bytes are valid UTF-8, `none` otherwise. -/
def stringFromUtf8 (bytes : List Nat) : Option String :=
  (utf8DecodeList bytes).map (fun cs => String.mk cs)

/-- Standard UTF-8 encoding of one unicode scalar value. -/
def utf8EncodeChar (c : Char) : List Nat :=
  let n := c.toNat
  if n < 0x80 then [n]
  else if n < 0x800 then [0xC0 + n / 0x40, 0x80 + n % 0x40]
  else if n < 0x10000 then
    [0xE0 + n / 0x1000, 0x80 + n / 0x40 % 0x40, 0x80 + n % 0x40]
  else
    [0xF0 + n / 0x40000, 0x80 + n / 0x1000 % 0x40, 0x80 + n / 0x40 % 0x40,
      0x80 + n % 0x40]

/-- Standard UTF-8 encoding of a text: the byte sequence `T.as_bytes()`
that a Rust `String` holding this text would contain. -/
def utf8Encode (s : String) : List Nat :=
  (s.data.map utf8EncodeChar).flatten

/-- `RangeInclusive<u16>` from `std::ops`, specialised to the use here. -/
structure RangeInclusive where
  lo : Nat
  hi : Nat
deriving DecidableEq

/-- `RangeInclusive::contains`. -/
def RangeInclusive.contains (r : RangeInclusive) (c : Nat) : Bool :=
  r.lo ≤ c && c ≤ r.hi

/-- `const HTTP_SUCCESS_CODES: RangeInclusive<u16> = 200..=208;` -/
def HTTP_SUCCESS_CODES : RangeInclusive := ⟨200, 208⟩

/-- A `ClientBlocking` trait object: its `send` primitive and its configured
base URL. `send` either produces a `Response` or a consolidated
`ClientError`. -/
structure ClientBlocking where
  send : Request → Except ClientError Response
  base : String

/-- The default `ClientBlocking::execute` pipeline from `src/client.rs`:
delegate to `send`, propagate its error, and otherwise classify the response
by status code. The two `log::info!` records are pure side effects with no
influence on the result and are not modelled. -/
def ClientBlocking.execute (cl : ClientBlocking) (req : Request) :
    Except ClientError Response :=
  match cl.send req with
  | Except.error e => Except.error e
  | Except.ok response =>
    if !(HTTP_SUCCESS_CODES.contains response.code) then
      Except.error
        (ClientError.serverResponseError response.url.toString response.code
          (stringFromUtf8 response.body))
    else
      Except.ok response

/-- An async `Client` trait object: same shape as `ClientBlocking`; the
suspension of `send` is invisible to the state-free pipeline, so its result
is embedded as a plain value. -/
structure Client where
  send : Request → Except ClientError Response
  base : String

/-- The default async `Client::execute` pipeline from `src/client.rs`,
written out separately because the source duplicates the pipeline body. -/
def Client.execute (cl : Client) (req : Request) :
    Except ClientError Response :=
  match cl.send req with
  | Except.error e => Except.error e
  | Except.ok response =>
    if !(HTTP_SUCCESS_CODES.contains response.code) then
      Except.error
        (ClientError.serverResponseError response.url.toString response.code
          (stringFromUtf8 response.body))
    else
      Except.ok response


theorem utf8DecodeList_nil : utf8DecodeList [] = some [] := rfl

theorem utf8DecodeList_cons_of_step {b0 : Nat} {rest : List Nat} {c : Char}
    {rest2 : List Nat} (hstep : utf8DecodeStep b0 rest = some (c, rest2)) :
    utf8DecodeList (b0 :: rest) = (utf8DecodeList rest2).map (fun cs => c :: cs) := by
  have h1 : utf8DecodeList (b0 :: rest) =
      (match utf8DecodeStep b0 rest with
        | none => none
        | some (c, rest2) => (utf8DecodeAux rest.length rest2).map (fun cs => c :: cs)) := rfl
  rw [h1, hstep]
  have hlen := utf8DecodeStep_length hstep
  show Option.map (fun cs => c :: cs) (utf8DecodeAux rest.length rest2) =
    Option.map (fun cs => c :: cs) (utf8DecodeList rest2)
  rw [utf8DecodeAux_congr rest.length rest2.length rest2 hlen (Nat.le_refl _)]
  rfl

theorem utf8DecodeStep1 (b0 : Nat) (h : b0 < 0x80) (rest : List Nat) :
    utf8DecodeStep b0 rest = some (Char.ofNat b0, rest) := by
  unfold utf8DecodeStep
  rw [if_pos h]

theorem utf8DecodeStep2 (b0 b1 : Nat) (h0 : 0xC2 ≤ b0) (h1 : b0 < 0xE0)
    (hb1 : 0x80 ≤ b1 ∧ b1 ≤ 0xBF) (rest : List Nat) :
    utf8DecodeStep b0 (b1 :: rest) =
      some (Char.ofNat ((b0 - 0xC0) * 0x40 + (b1 - 0x80)), rest) := by
  have hn1 : ¬ b0 < 0x80 := by omega
  have hn2 : ¬ b0 < 0xC2 := by omega
  have hc : isCont b1 = true := by
    simp only [isCont, Bool.and_eq_true, decide_eq_true_eq]
    omega
  unfold utf8DecodeStep
  rw [if_neg hn1, if_neg hn2, if_pos h1]
  simp [hc]

theorem utf8DecodeStep3 (b0 b1 b2 : Nat) (h0 : 0xE0 ≤ b0) (h1 : b0 < 0xF0)
    (hb1 : if b0 = 0xE0 then 0xA0 ≤ b1 ∧ b1 ≤ 0xBF
           else if b0 = 0xED then 0x80 ≤ b1 ∧ b1 ≤ 0x9F
           else 0x80 ≤ b1 ∧ b1 ≤ 0xBF)
    (hb2 : 0x80 ≤ b2 ∧ b2 ≤ 0xBF) (rest : List Nat) :
    utf8DecodeStep b0 (b1 :: b2 :: rest) =
      some (Char.ofNat ((b0 - 0xE0) * 0x1000 + (b1 - 0x80) * 0x40 + (b2 - 0x80)),
        rest) := by
  have hn1 : ¬ b0 < 0x80 := by omega
  have hn2 : ¬ b0 < 0xC2 := by omega
  have hn3 : ¬ b0 < 0xE0 := by omega
  have hc2 : isCont b2 = true := by
    simp only [isCont, Bool.and_eq_true, decide_eq_true_eq]
    omega
  unfold utf8DecodeStep
  rw [if_neg hn1, if_neg hn2, if_neg hn3, if_pos h1]
  by_cases he : b0 = 0xE0
  · rw [if_pos he] at hb1
    simp [he, hc2, hb1.1, hb1.2]
  · by_cases hd : b0 = 0xED
    · rw [if_neg he, if_pos hd] at hb1
      simp [he, hd, hc2, hb1.1, hb1.2]
    · rw [if_neg he, if_neg hd] at hb1
      have hc1 : isCont b1 = true := by
        simp only [isCont, Bool.and_eq_true, decide_eq_true_eq]
        omega
      simp [he, hd, hc1, hc2]

theorem utf8DecodeStep4 (b0 b1 b2 b3 : Nat) (h0 : 0xF0 ≤ b0) (h1 : b0 < 0xF5)
    (hb1 : if b0 = 0xF0 then 0x90 ≤ b1 ∧ b1 ≤ 0xBF
           else if b0 = 0xF4 then 0x80 ≤ b1 ∧ b1 ≤ 0x8F
           else 0x80 ≤ b1 ∧ b1 ≤ 0xBF)
    (hb2 : 0x80 ≤ b2 ∧ b2 ≤ 0xBF) (hb3 : 0x80 ≤ b3 ∧ b3 ≤ 0xBF) (rest : List Nat) :
    utf8DecodeStep b0 (b1 :: b2 :: b3 :: rest) =
      some (Char.ofNat
          ((b0 - 0xF0) * 0x40000 + (b1 - 0x80) * 0x1000 +
            (b2 - 0x80) * 0x40 + (b3 - 0x80)),
        rest) := by
  have hn1 : ¬ b0 < 0x80 := by omega
  have hn2 : ¬ b0 < 0xC2 := by omega
  have hn3 : ¬ b0 < 0xE0 := by omega
  have hn4 : ¬ b0 < 0xF0 := by omega
  have hc2 : isCont b2 = true := by
    simp only [isCont, Bool.and_eq_true, decide_eq_true_eq]
    omega
  have hc3 : isCont b3 = true := by
    simp only [isCont, Bool.and_eq_true, decide_eq_true_eq]
    omega
  unfold utf8DecodeStep
  rw [if_neg hn1, if_neg hn2, if_neg hn3, if_neg hn4, if_pos h1]
  by_cases he : b0 = 0xF0
  · rw [if_pos he] at hb1
    simp [he, hc2, hc3, hb1.1, hb1.2]
  · by_cases hd : b0 = 0xF4
    · rw [if_neg he, if_pos hd] at hb1
      simp [he, hd, hc2, hc3, hb1.1, hb1.2]
    · rw [if_neg he, if_neg hd] at hb1
      have hc1 : isCont b1 = true := by
        simp only [isCont, Bool.and_eq_true, decide_eq_true_eq]
        omega
      simp [he, hd, hc1, hc2, hc3]



theorem utf8DecodeList_encodeChar (c : Char) (bs : List Nat) :
    utf8DecodeList (utf8EncodeChar c ++ bs) =
      (utf8DecodeList bs).map (fun cs => c :: cs) := by
  have hv : c.toNat < 0xd800 ∨ (0xdfff < c.toNat ∧ c.toNat < 0x110000) := c.valid
  by_cases h1 : c.toNat < 0x80
  · have henc : utf8EncodeChar c = [c.toNat] := by
      simp only [utf8EncodeChar]
      rw [if_pos h1]
    rw [henc, List.singleton_append,
      utf8DecodeList_cons_of_step (utf8DecodeStep1 c.toNat h1 bs), Char.ofNat_toNat]
  · by_cases h2 : c.toNat < 0x800
    · have henc : utf8EncodeChar c =
          [0xC0 + c.toNat / 0x40, 0x80 + c.toNat % 0x40] := by
        simp only [utf8EncodeChar]
        rw [if_neg h1, if_pos h2]
      have hstep := utf8DecodeStep2 (0xC0 + c.toNat / 0x40) (0x80 + c.toNat % 0x40)
        (by omega) (by omega) ⟨by omega, by omega⟩ bs
      have hchar : Char.ofNat ((0xC0 + c.toNat / 0x40 - 0xC0) * 0x40 +
          (0x80 + c.toNat % 0x40 - 0x80)) = c := by
        have harg : (0xC0 + c.toNat / 0x40 - 0xC0) * 0x40 +
            (0x80 + c.toNat % 0x40 - 0x80) = c.toNat := by omega
        rw [harg, Char.ofNat_toNat]
      rw [henc]
      simp only [List.cons_append, List.nil_append]
      rw [utf8DecodeList_cons_of_step hstep]
      simp only [hchar]
    · by_cases h3 : c.toNat < 0x10000
      · have henc : utf8EncodeChar c =
            [0xE0 + c.toNat / 0x1000, 0x80 + c.toNat / 0x40 % 0x40,
              0x80 + c.toNat % 0x40] := by
          simp only [utf8EncodeChar]
          rw [if_neg h1, if_neg h2, if_pos h3]
        have hb1 : if 0xE0 + c.toNat / 0x1000 = 0xE0 then
              0xA0 ≤ 0x80 + c.toNat / 0x40 % 0x40 ∧ 0x80 + c.toNat / 0x40 % 0x40 ≤ 0xBF
            else if 0xE0 + c.toNat / 0x1000 = 0xED then
              0x80 ≤ 0x80 + c.toNat / 0x40 % 0x40 ∧ 0x80 + c.toNat / 0x40 % 0x40 ≤ 0x9F
            else
              0x80 ≤ 0x80 + c.toNat / 0x40 % 0x40 ∧
                0x80 + c.toNat / 0x40 % 0x40 ≤ 0xBF := by
          split_ifs with hE hD
          · exact ⟨by omega, by omega⟩
          · exact ⟨by omega, by omega⟩
          · exact ⟨by omega, by omega⟩
        have hstep := utf8DecodeStep3 (0xE0 + c.toNat / 0x1000)
          (0x80 + c.toNat / 0x40 % 0x40) (0x80 + c.toNat % 0x40)
          (by omega) (by omega) hb1 ⟨by omega, by omega⟩ bs
        have hchar : Char.ofNat ((0xE0 + c.toNat / 0x1000 - 0xE0) * 0x1000 +
            (0x80 + c.toNat / 0x40 % 0x40 - 0x80) * 0x40 +
            (0x80 + c.toNat % 0x40 - 0x80)) = c := by
          have harg : (0xE0 + c.toNat / 0x1000 - 0xE0) * 0x1000 +
              (0x80 + c.toNat / 0x40 % 0x40 - 0x80) * 0x40 +
              (0x80 + c.toNat % 0x40 - 0x80) = c.toNat := by omega
          rw [harg, Char.ofNat_toNat]
        rw [henc]
        simp only [List.cons_append, List.nil_append]
        rw [utf8DecodeList_cons_of_step hstep]
        simp only [hchar]
      · have h4 : c.toNat < 0x110000 := by omega
        have henc : utf8EncodeChar c =
            [0xF0 + c.toNat / 0x40000, 0x80 + c.toNat / 0x1000 % 0x40,
              0x80 + c.toNat / 0x40 % 0x40, 0x80 + c.toNat % 0x40] := by
          simp only [utf8EncodeChar]
          rw [if_neg h1, if_neg h2, if_neg h3]
        have hb1 : if 0xF0 + c.toNat / 0x40000 = 0xF0 then
              0x90 ≤ 0x80 + c.toNat / 0x1000 % 0x40 ∧ 0x80 + c.toNat / 0x1000 % 0x40 ≤ 0xBF
            else if 0xF0 + c.toNat / 0x40000 = 0xF4 then
              0x80 ≤ 0x80 + c.toNat / 0x1000 % 0x40 ∧ 0x80 + c.toNat / 0x1000 % 0x40 ≤ 0x8F
            else
              0x80 ≤ 0x80 + c.toNat / 0x1000 % 0x40 ∧
                0x80 + c.toNat / 0x1000 % 0x40 ≤ 0xBF := by
          split_ifs with hE hD
          · exact ⟨by omega, by omega⟩
          · exact ⟨by omega, by omega⟩
          · exact ⟨by omega, by omega⟩
        have hstep := utf8DecodeStep4 (0xF0 + c.toNat / 0x40000)
          (0x80 + c.toNat / 0x1000 % 0x40) (0x80 + c.toNat / 0x40 % 0x40)
          (0x80 + c.toNat % 0x40)
          (by omega) (by omega) hb1 ⟨by omega, by omega⟩ ⟨by omega, by omega⟩ bs
        have hchar : Char.ofNat ((0xF0 + c.toNat / 0x40000 - 0xF0) * 0x40000 +
            (0x80 + c.toNat / 0x1000 % 0x40 - 0x80) * 0x1000 +
            (0x80 + c.toNat / 0x40 % 0x40 - 0x80) * 0x40 +
            (0x80 + c.toNat % 0x40 - 0x80)) = c := by
          have harg : (0xF0 + c.toNat / 0x40000 - 0xF0) * 0x40000 +
              (0x80 + c.toNat / 0x1000 % 0x40 - 0x80) * 0x1000 +
              (0x80 + c.toNat / 0x40 % 0x40 - 0x80) * 0x40 +
              (0x80 + c.toNat % 0x40 - 0x80) = c.toNat := by omega
          rw [harg, Char.ofNat_toNat]
        rw [henc]
        simp only [List.cons_append, List.nil_append]
        rw [utf8DecodeList_cons_of_step hstep]
        simp only [hchar]

theorem utf8DecodeList_encode_append (s : List Char) (bs : List Nat) :
    utf8DecodeList ((s.map utf8EncodeChar).flatten ++ bs) =
      (utf8DecodeList bs).map (fun cs => s ++ cs) := by
  induction s with
  | nil =>
    simp only [List.map_nil, List.flatten_nil, List.nil_append]
    cases utf8DecodeList bs <;> rfl
  | cons c s ih =>
    simp only [List.map_cons, List.flatten_cons, List.append_assoc]
    rw [utf8DecodeList_encodeChar c _, ih]
    cases utf8DecodeList bs <;> rfl

theorem stringFromUtf8_encode (T : String) :
    stringFromUtf8 (utf8Encode T) = some T := by
  have h := utf8DecodeList_encode_append T.data []
  rw [List.append_nil] at h
  unfold stringFromUtf8 utf8Encode
  rw [h]
  simp only [utf8DecodeList, List.length_nil, Option.map_map]
  show some (String.mk (T.data ++ [])) = some T
  rw [List.append_nil]



theorem execute_cases (send : Request → Except ClientError Response)
    (base : String) (req : Request) :
    (ClientBlocking.mk send base).execute req =
      match send req with
      | Except.error e => Except.error e
      | Except.ok response =>
        if !(HTTP_SUCCESS_CODES.contains response.code) then
          Except.error
            (ClientError.serverResponseError response.url.toString response.code
              (stringFromUtf8 response.body))
        else
          Except.ok response := rfl

theorem contains_iff (c : Nat) :
    HTTP_SUCCESS_CODES.contains c = true ↔ (200 ≤ c ∧ c ≤ 208) := by
  simp [HTTP_SUCCESS_CODES, RangeInclusive.contains]

/-- Whether an `execute` outcome is the success case. -/
def isSuccessResult (r : Except ClientError Response) : Bool :=
  match r with
  | Except.ok _ => true
  | Except.error _ => false

/-- C1: a response from `send` whose status code lies in the inclusive range
200..=208 is returned by `execute` as a successful result unchanged: same
url, same code, same body. -/
theorem execute_success_identity (send : Request → Except ClientError Response)
    (base : String) (req : Request) (resp : Response)
    (hsend : send req = Except.ok resp)
    (hcode : 200 ≤ resp.code ∧ resp.code ≤ 208) :
    ∃ r : Response, (ClientBlocking.mk send base).execute req = Except.ok r ∧
      r.url = resp.url ∧ r.code = resp.code ∧ r.body = resp.body := by
  refine ⟨resp, ?_, rfl, rfl, rfl⟩
  rw [execute_cases, hsend]
  have hc : HTTP_SUCCESS_CODES.contains resp.code = true :=
    (contains_iff resp.code).mpr hcode
  simp [hc]



/-- C2: a response from `send` whose status code lies outside 200..=208 makes
`execute` return a `ServerResponseError` whose `code` is that status code and
whose `url` is the textual form of the response URL. -/
theorem execute_error_code_url (send : Request → Except ClientError Response)
    (base : String) (req : Request) (resp : Response)
    (hsend : send req = Except.ok resp)
    (hcode : ¬ (200 ≤ resp.code ∧ resp.code ≤ 208)) :
    ∃ content : Option String,
      (ClientBlocking.mk send base).execute req =
        Except.error
          (ClientError.serverResponseError (Url.toString resp.url) resp.code
            content) := by
  refine ⟨stringFromUtf8 resp.body, ?_⟩
  rw [execute_cases, hsend]
  have hc : HTTP_SUCCESS_CODES.contains resp.code = false := by
    rw [← Bool.not_eq_true]
    intro hcon
    exact hcode ((contains_iff resp.code).mp hcon)
  simp [hc, Url.toString]

/-- C3: when `execute` classifies a response as an error, the
`ServerResponseError.content` is `some T` whenever the body bytes are the
UTF-8 encoding of the text `T`, and `none` whenever the bytes are not valid
UTF-8; a non-UTF-8 body still yields the structured error, never any other
failure. -/
theorem execute_error_content_utf8 (send : Request → Except ClientError Response)
    (base : String) (req : Request) (resp : Response)
    (hsend : send req = Except.ok resp)
    (hcode : ¬ (200 ≤ resp.code ∧ resp.code ≤ 208)) :
    (∀ T : String, resp.body = utf8Encode T →
      (ClientBlocking.mk send base).execute req =
        Except.error
          (ClientError.serverResponseError (Url.toString resp.url) resp.code
            (some T))) ∧
    (utf8DecodeList resp.body = none →
      (ClientBlocking.mk send base).execute req =
        Except.error
          (ClientError.serverResponseError (Url.toString resp.url) resp.code
            none)) := by
  have hc : HTTP_SUCCESS_CODES.contains resp.code = false := by
    rw [← Bool.not_eq_true]
    intro hcon
    exact hcode ((contains_iff resp.code).mp hcon)
  have hbase : (ClientBlocking.mk send base).execute req =
      Except.error
        (ClientError.serverResponseError (Url.toString resp.url) resp.code
          (stringFromUtf8 resp.body)) := by
    rw [execute_cases, hsend]
    simp [hc, Url.toString]
  constructor
  · intro T hT
    rw [hbase, hT, stringFromUtf8_encode]
  · intro hnone
    rw [hbase]
    have : stringFromUtf8 resp.body = none := by
      rw [stringFromUtf8, hnone]
      rfl
    rw [this]

/-- C4: when `send` fails, `execute` returns exactly that `ClientError`
value, with no retry, wrapping or transformation. -/
theorem execute_propagates_send_error (send : Request → Except ClientError Response)
    (base : String) (req : Request) (e : ClientError)
    (hsend : send req = Except.error e) :
    (ClientBlocking.mk send base).execute req = Except.error e := by
  rw [execute_cases, hsend]

/-- C5: every `Response` that `execute` returns successfully has its status
code inside the inclusive range 200..=208. -/
theorem execute_ok_code_in_range (send : Request → Except ClientError Response)
    (base : String) (req : Request) (resp : Response)
    (h : (ClientBlocking.mk send base).execute req = Except.ok resp) :
    200 ≤ resp.code ∧ resp.code ≤ 208 := by
  rw [execute_cases] at h
  cases hs : send req with
  | error e =>
    rw [hs] at h
    simp at h
  | ok response =>
    rw [hs] at h
    by_cases hc : HTTP_SUCCESS_CODES.contains response.code = true
    · simp [hc] at h
      rw [← h]
      exact (contains_iff response.code).mp hc
    · have hc2 : HTTP_SUCCESS_CODES.contains response.code = false := by
        rw [← Bool.not_eq_true]
        exact hc
      simp [hc2] at h

/-- C6: the blocking and the asynchronous pipeline implement the identical
algorithm: with the same `send` behaviour and configuration they produce
equal outcomes on every request. -/
theorem execute_blocking_async_agree (send : Request → Except ClientError Response)
    (base : String) (req : Request) :
    (ClientBlocking.mk send base).execute req =
      (Client.mk send base).execute req := rfl

/-- C7: the pipeline never mutates the request: the result of `execute` only
depends on the behaviour of `send` at exactly the request the caller
constructed, so the request delegated to `send` is that request itself. -/
theorem execute_request_unmodified (f g : Request → Except ClientError Response)
    (base : String) (req : Request) (h : f req = g req) :
    (ClientBlocking.mk f base).execute req =
      (ClientBlocking.mk g base).execute req := by
  rw [execute_cases, execute_cases, h]

/-- C8: an empty body does not affect success/failure classification: for
every status code, an empty-body response is classified exactly as any other
body would be, and an empty-body success response is returned with its empty
body intact. -/
theorem execute_empty_body_classification (base : String) (req : Request)
    (resp : Response) (body2 : List Nat) :
    (isSuccessResult
        ((ClientBlocking.mk
            (fun _ => Except.ok (Response.mk resp.url resp.code []))
            base).execute req) =
      isSuccessResult
        ((ClientBlocking.mk
            (fun _ => Except.ok (Response.mk resp.url resp.code body2))
            base).execute req)) ∧
    (200 ≤ resp.code ∧ resp.code ≤ 208 →
      (ClientBlocking.mk
          (fun _ => Except.ok (Response.mk resp.url resp.code []))
          base).execute req =
        Except.ok (Response.mk resp.url resp.code [])) := by
  constructor
  · rw [execute_cases, execute_cases]
    cases hc : HTTP_SUCCESS_CODES.contains resp.code <;>
      simp [isSuccessResult, hc]
  · intro hcode
    rw [execute_cases]
    have hc : HTTP_SUCCESS_CODES.contains resp.code = true :=
      (contains_iff resp.code).mpr hcode
    simp [hc]

/-- C9: success/failure classification depends only on the numeric status
code: two responses with equal codes are classified alike regardless of
their urls and bodies. -/
theorem execute_classification_code_only (base : String) (req : Request)
    (r1 r2 : Response) (h : r1.code = r2.code) :
    isSuccessResult
        ((ClientBlocking.mk (fun _ => Except.ok r1) base).execute req) =
      isSuccessResult
        ((ClientBlocking.mk (fun _ => Except.ok r2) base).execute req) := by
  have hcase : ∀ (r : Response),
      (ClientBlocking.mk (fun _ => Except.ok r) base).execute req =
        if !(HTTP_SUCCESS_CODES.contains r.code) then
          Except.error
            (ClientError.serverResponseError r.url.toString r.code
              (stringFromUtf8 r.body))
        else Except.ok r := fun r => rfl
  rw [hcase, hcase, h]
  cases hc : HTTP_SUCCESS_CODES.contains r2.code <;>
    simp [isSuccessResult, hc]

/-- C10: `execute` never consults the configured base URL: two clients with
the same `send` behaviour but different `base` strings produce identical
results on every request. -/
theorem execute_independent_of_base (send : Request → Except ClientError Response)
    (b1 b2 : String) (req : Request) :
    (ClientBlocking.mk send b1).execute req =
      (ClientBlocking.mk send b2).execute req := rfl



deriving instance DecidableEq for Except

/-- A concrete URL used by the witnesses below. -/
def wUrl : Url := "http://example.com/a"

/-- A concrete request used by the witnesses below. -/
def wReq : Request := Request.mk wUrl RequestMethod.GET [] [] []

/-- A concrete response with the given code and body. -/
def wResp (code : Nat) (body : List Nat) : Response := Response.mk wUrl code body

/-- A `send` that always succeeds with the given response. -/
def wSendOk (r : Response) : Request → Except ClientError Response :=
  fun _ => Except.ok r

/-- A `send` that always fails with a transport error. -/
def wSendErr : Request → Except ClientError Response :=
  fun _ => Except.error (ClientError.transport "connection refused")

theorem execute_success_identity_witness :
    (wSendOk (wResp 208 [0x6F, 0x6B]) wReq = Except.ok (wResp 208 [0x6F, 0x6B]) ∧
      200 ≤ (wResp 208 [0x6F, 0x6B]).code ∧ (wResp 208 [0x6F, 0x6B]).code ≤ 208) ∧
    ∃ r : Response,
      (ClientBlocking.mk (wSendOk (wResp 208 [0x6F, 0x6B])) "base").execute wReq =
          Except.ok r ∧
        r.url = (wResp 208 [0x6F, 0x6B]).url ∧
        r.code = (wResp 208 [0x6F, 0x6B]).code ∧
        r.body = (wResp 208 [0x6F, 0x6B]).body :=
  ⟨⟨rfl, by decide⟩,
    execute_success_identity (wSendOk (wResp 208 [0x6F, 0x6B])) "base" wReq
      (wResp 208 [0x6F, 0x6B]) rfl (by decide)⟩

theorem execute_error_code_url_witness :
    (wSendOk (wResp 209 []) wReq = Except.ok (wResp 209 []) ∧
      ¬ (200 ≤ (wResp 209 []).code ∧ (wResp 209 []).code ≤ 208)) ∧
    ∃ content : Option String,
      (ClientBlocking.mk (wSendOk (wResp 209 [])) "base").execute wReq =
        Except.error
          (ClientError.serverResponseError (Url.toString (wResp 209 []).url)
            (wResp 209 []).code content) :=
  ⟨⟨rfl, by decide⟩,
    execute_error_code_url (wSendOk (wResp 209 [])) "base" wReq (wResp 209 [])
      rfl (by decide)⟩

theorem execute_error_content_utf8_witness :
    (wSendOk (wResp 500 [0xFF, 0xFE]) wReq = Except.ok (wResp 500 [0xFF, 0xFE]) ∧
      ¬ (200 ≤ (wResp 500 [0xFF, 0xFE]).code ∧ (wResp 500 [0xFF, 0xFE]).code ≤ 208)) ∧
    (∀ T : String, (wResp 500 [0xFF, 0xFE]).body = utf8Encode T →
      (ClientBlocking.mk (wSendOk (wResp 500 [0xFF, 0xFE])) "base").execute wReq =
        Except.error
          (ClientError.serverResponseError (Url.toString (wResp 500 [0xFF, 0xFE]).url)
            (wResp 500 [0xFF, 0xFE]).code (some T))) ∧
    (utf8DecodeList (wResp 500 [0xFF, 0xFE]).body = none →
      (ClientBlocking.mk (wSendOk (wResp 500 [0xFF, 0xFE])) "base").execute wReq =
        Except.error
          (ClientError.serverResponseError (Url.toString (wResp 500 [0xFF, 0xFE]).url)
            (wResp 500 [0xFF, 0xFE]).code none)) :=
  ⟨⟨rfl, by decide⟩,
    execute_error_content_utf8 (wSendOk (wResp 500 [0xFF, 0xFE])) "base" wReq
      (wResp 500 [0xFF, 0xFE]) rfl (by decide)⟩

theorem execute_propagates_send_error_witness :
    wSendErr wReq = Except.error (ClientError.transport "connection refused") ∧
    (ClientBlocking.mk wSendErr "base").execute wReq =
      Except.error (ClientError.transport "connection refused") :=
  ⟨rfl,
    execute_propagates_send_error wSendErr "base" wReq
      (ClientError.transport "connection refused") rfl⟩

theorem execute_ok_code_in_range_witness :
    (ClientBlocking.mk (wSendOk (wResp 204 [])) "base").execute wReq =
        Except.ok (wResp 204 []) ∧
      (200 ≤ (wResp 204 []).code ∧ (wResp 204 []).code ≤ 208) :=
  ⟨by decide,
    execute_ok_code_in_range (wSendOk (wResp 204 [])) "base" wReq (wResp 204 [])
      (by decide)⟩

theorem execute_request_unmodified_witness :
    (wSendOk (wResp 200 []) wReq =
        (fun q : Request => if q.body = [] then Except.ok (wResp 200 [])
          else Except.error (ClientError.transport "never")) wReq) ∧
    (ClientBlocking.mk (wSendOk (wResp 200 [])) "base").execute wReq =
      (ClientBlocking.mk
          (fun q : Request => if q.body = [] then Except.ok (wResp 200 [])
            else Except.error (ClientError.transport "never"))
          "base").execute wReq :=
  ⟨by decide,
    execute_request_unmodified (wSendOk (wResp 200 []))
      (fun q : Request => if q.body = [] then Except.ok (wResp 200 [])
        else Except.error (ClientError.transport "never"))
      "base" wReq (by decide)⟩

theorem execute_empty_body_classification_witness :
    (isSuccessResult
        ((ClientBlocking.mk
            (fun _ => Except.ok (Response.mk (wResp 204 [7]).url (wResp 204 [7]).code []))
            "base").execute wReq) =
      isSuccessResult
        ((ClientBlocking.mk
            (fun _ => Except.ok (Response.mk (wResp 204 [7]).url (wResp 204 [7]).code [0xFF]))
            "base").execute wReq)) ∧
    (200 ≤ (wResp 204 [7]).code ∧ (wResp 204 [7]).code ≤ 208 →
      (ClientBlocking.mk
          (fun _ => Except.ok (Response.mk (wResp 204 [7]).url (wResp 204 [7]).code []))
          "base").execute wReq =
        Except.ok (Response.mk (wResp 204 [7]).url (wResp 204 [7]).code [])) :=
  execute_empty_body_classification "base" wReq (wResp 204 [7]) [0xFF]

theorem execute_classification_code_only_witness :
    ((wResp 404 [1]).code = (Response.mk "http://other.example/" 404 [2] : Response).code) ∧
    isSuccessResult
        ((ClientBlocking.mk (fun _ => Except.ok (wResp 404 [1])) "base").execute wReq) =
      isSuccessResult
        ((ClientBlocking.mk
            (fun _ => Except.ok (Response.mk "http://other.example/" 404 [2]))
            "base").execute wReq) :=
  ⟨by decide,
    execute_classification_code_only "base" wReq (wResp 404 [1])
      (Response.mk "http://other.example/" 404 [2]) (by decide)⟩


end Rustify
